import Mathlib

/-!
A verification development for the cleaning-session state machine of a
survey-data-cleaning web application (React frontend over a REST backend).

The frontend sources are embedded directly; the backend session core
(Dataset Store, History Manager, Dispatcher) is not part of the shipped
sources, so its operations are modelled from the specification and are
marked `Modelled from the spec:` in their doc comments.
-/

namespace Renvo

/-- A cell value of a tabular dataset: numeric, string, boolean or null. -/
inductive Cell where
  | num (q : Rat)
  | str (s : String)
  | boolean (b : Bool)
  | null
deriving DecidableEq, Repr

/-- A dataset is an ordered collection of named columns, each an ordered
sequence of cell values. -/
def Dataset := List (String × List Cell)

instance : DecidableEq Dataset := by
  unfold Dataset
  infer_instance

/-- The closed nine-value column-type enumeration offered by the type-selection
UI (source: the `typeOptions` constant of the HomePage component). -/
def typeOptions : List String :=
  ["continuous", "integer", "ordinal", "categorical", "binary",
   "text", "datetime", "empty", "unknown"]

/-- Whether a cell is the null value. -/
def Cell.isNull : Cell → Bool
  | .null => true
  | _ => false

/-- Whether a cell is numeric. -/
def Cell.isNum : Cell → Bool
  | .num _ => true
  | _ => false

/-- Whether a cell is a whole number. -/
def Cell.isWhole : Cell → Bool
  | .num q => q.den == 1
  | _ => false

/-- Whether a string parses as a simple ISO-style date. -/
def isDateString (s : String) : Bool :=
  match s.splitOn "-" with
  | [y, m, d] =>
      y.length == 4 && y.all Char.isDigit &&
      !m.isEmpty && m.all Char.isDigit &&
      !d.isEmpty && d.all Char.isDigit
  | _ => false

/-- Whether a cell holds a date-like string. -/
def Cell.isDateLike : Cell → Bool
  | .str s => isDateString s
  | _ => false

/-- Display length of a cell, used for the text-threshold heuristic. -/
def Cell.textLen : Cell → Nat
  | .str s => s.length
  | _ => 1

/-- The non-null values of a column. -/
def nonNullCells (vals : List Cell) : List Cell :=
  vals.filter (fun c => !c.isNull)

/-- Modelled from the spec: `detect_type` of the Column Metadata Registry
(backend code absent from the sources). Pure function over a column's values
returning one of the nine semantic types, with the spec's tie-break policy:
`empty` if all values are null, `binary` for exactly two distinct non-null
values, `categorical` for small cardinality relative to row count,
`continuous` vs `integer` by wholeness of all numeric values, `datetime` when
values parse as dates, `text` when average string length exceeds a threshold,
else `unknown`. -/
def detectType (vals : List Cell) : String :=
  if (nonNullCells vals).isEmpty then "empty"
  else if (nonNullCells vals).dedup.length == 2 then "binary"
  else if (nonNullCells vals).dedup.length * 10 ≤ vals.length then
    "categorical"
  else if (nonNullCells vals).all Cell.isNum then
    (if (nonNullCells vals).all Cell.isWhole then "integer" else "continuous")
  else if (nonNullCells vals).all Cell.isDateLike then "datetime"
  else if 50 * (nonNullCells vals).length ≤
      ((nonNullCells vals).map Cell.textLen).sum then "text"
  else "unknown"

/-- Modelled from the spec: full metadata detection over a dataset, one
detected type per column. -/
def detectTypes (d : Dataset) : List (String × String) :=
  d.map (fun p => (p.1, detectType p.2))

/-- Modelled from the spec: an Operation Record — one applied cleaning /
fix / balance action with target column, method category and name, parameters,
timestamp and the captured pre-image; a post-image is also stored so that redo
restores it directly (the spec explicitly allows storing a post-image at apply
time instead of re-executing the transform). -/
structure OpRecord where
  column : Option String
  category : String
  method : String
  params : List (String × String)
  timestamp : Nat
  preImage : Dataset
  postImage : Dataset
deriving DecidableEq

/-- Modelled from the spec: a cleaning operation as seen by the Dispatcher —
its identifying data plus the external transform collaborator. -/
structure OpSpec where
  column : Option String
  category : String
  method : String
  params : List (String × String)
  transform : Dataset → Dataset

/-- Modelled from the spec: per-session state — active dataset, pristine
copy, assigned column types, and the two history stacks (head = most
recent). -/
structure Session where
  active : Dataset
  pristine : Dataset
  assignedTypes : List (String × String)
  undoStack : List OpRecord
  redoStack : List OpRecord
deriving DecidableEq

/-- The hard history-depth constant of the spec: undo/redo cap of 20. -/
def historyCap : Nat := 20

/-- Modelled from the spec: error taxonomy of the session core. -/
inductive CoreErr where
  | NothingToUndo
  | NothingToRedo
  | InvalidType
  | InvalidOperation
deriving DecidableEq, Repr

/-- Modelled from the spec: initial session state after a dataset load —
active and pristine copies coincide, assigned types default to the detected
ones, both history stacks empty. -/
def loadDataset (d : Dataset) : Session :=
  { active := d, pristine := d, assignedTypes := detectTypes d,
    undoStack := [], redoStack := [] }

/-- The Operation Record the Dispatcher pushes when committing `op` on a
session whose active dataset is `d`. -/
def mkRecord (op : OpSpec) (d : Dataset) : OpRecord :=
  { column := op.column, category := op.category, method := op.method,
    params := op.params, timestamp := 0,
    preImage := d, postImage := op.transform d }

/-- Modelled from the spec: the commit path of the Dispatcher's apply —
replace the active dataset with the transformed one, push an Operation Record
onto the undo stack evicting the oldest entry beyond the cap, and clear the
redo stack. -/
def applyClean (op : OpSpec) (s : Session) : Session :=
  { s with active := op.transform s.active,
           undoStack := (mkRecord op s.active :: s.undoStack).take historyCap,
           redoStack := [] }

/-- Fold a list of committed operations over a session. -/
def applyAll (ops : List OpSpec) (s : Session) : Session :=
  ops.foldl (fun s op => applyClean op s) s

/-- The dataset obtained by running a list of transforms in order. -/
def transformAll (ops : List OpSpec) (d : Dataset) : Dataset :=
  ops.foldl (fun d op => op.transform d) d

/-- Modelled from the spec: `undo()` — fails with `NothingToUndo` on an empty
undo stack; otherwise pops the most recent record, restores its pre-image and
pushes the record onto the redo stack. -/
def undo (s : Session) : Except CoreErr Session :=
  match s.undoStack with
  | [] => .error .NothingToUndo
  | r :: rest =>
      .ok { s with active := r.preImage, undoStack := rest,
                   redoStack := r :: s.redoStack }

/-- Modelled from the spec: `redo()` — fails with `NothingToRedo` on an empty
redo stack; otherwise pops the record, restores its post-image and pushes the
record back onto the undo stack. -/
def redo (s : Session) : Except CoreErr Session :=
  match s.redoStack with
  | [] => .error .NothingToRedo
  | r :: rest =>
      .ok { s with active := r.postImage, redoStack := rest,
                   undoStack := r :: s.undoStack }

/-- Iterate `undo` n times, propagating the first failure. -/
def undoN : Nat → Session → Except CoreErr Session
  | 0, s => .ok s
  | n + 1, s =>
      match undo s with
      | .ok s' => undoN n s'
      | .error e => .error e

/-- Iterate `redo` n times, propagating the first failure. -/
def redoN : Nat → Session → Except CoreErr Session
  | 0, s => .ok s
  | n + 1, s =>
      match redo s with
      | .ok s' => redoN n s'
      | .error e => .error e

/-- Modelled from the spec: the single "reset" marker record pushed by
`reset_session`. -/
def resetMarker (s : Session) : OpRecord :=
  { column := none, category := "reset", method := "reset", params := [],
    timestamp := 0, preImage := s.active, postImage := s.pristine }

/-- Modelled from the spec: `reset_session` — restores the active dataset
from the pristine copy, clears metadata back to freshly-detected values,
clears both stacks and pushes a single "reset" marker onto the undo stack. -/
def resetSession (s : Session) : Session :=
  { s with active := s.pristine,
           assignedTypes := detectTypes s.pristine,
           undoStack := [resetMarker s],
           redoStack := [] }

/-- Modelled from the spec: `set_assigned_types` — validates that every value
of the mapping is one of the nine allowed types and fails with `InvalidType`
otherwise (whole-batch rejection, one of the two policies the spec leaves
open); it mutates only the classification, never the data. -/
def setAssignedTypes (m : List (String × String)) (s : Session) :
    Except CoreErr Session :=
  if m.all (fun p => typeOptions.contains p.2) then
    .ok { s with assignedTypes := m }
  else
    .error .InvalidType

/-- A catalog entry of the external cleaning-method catalog: identifier,
display name and the declared applicable-types set (type names, possibly the
wildcard "all"). -/
structure CleaningMethod where
  id : String
  name : String
  applicable : List String
deriving DecidableEq, Repr

/-- The applicability predicate: the method's declared applicable-types set
contains the wildcard "all" or the given column type. -/
def methodApplicable (m : CleaningMethod) (colType : String) : Bool :=
  m.applicable.contains "all" || m.applicable.contains colType

/-- The assigned type recorded for a column, defaulting to "unknown" when
none is recorded. -/
def colAssignedType (s : Session) (col : String) : String :=
  match s.assignedTypes.lookup col with
  | some t => t
  | none => "unknown"

/-- Look a method up in the catalog by category and method name. -/
def lookupMethod (catalog : List (String × List CleaningMethod))
    (category methodName : String) : Option CleaningMethod :=
  match catalog.lookup category with
  | none => none
  | some ms => ms.find? (fun m => m.id == methodName)

/-- Modelled from the spec: the validation step of the Dispatcher's apply —
the method must exist in the catalog for the stated category, its declared
applicable-types set must include the column's current assigned type (or the
wildcard "all"), and the column must exist in the dataset; failing any check
signals `InvalidOperation` and performs no mutation, otherwise the commit
path runs. -/
def dispatchClean (catalog : List (String × List CleaningMethod))
    (category methodName col : String) (t : Dataset → Dataset)
    (s : Session) : Except CoreErr Session :=
  match lookupMethod catalog category methodName with
  | none => .error .InvalidOperation
  | some m =>
      if methodApplicable m (colAssignedType s col) &&
         (s.active.map Prod.fst).contains col then
        .ok (applyClean ⟨some col, category, methodName, [], t⟩ s)
      else
        .error .InvalidOperation

/-- Modelled from the spec: the preview variant of apply — performs the
validation-free steps 1–3 (computing what the transform would produce on the
active dataset), reports it, and discards the result: the session is returned
untouched. -/
def previewClean (op : OpSpec) (s : Session) : Dataset × Session :=
  (op.transform s.active, s)

/-- One externally-invokable mutating action on a session, for reachability
statements. Failed actions leave the session unchanged. -/
inductive Act where
  | applyA (op : OpSpec)
  | undoA
  | redoA
  | resetA
  | setTypesA (m : List (String × String))

/-- Run one action; a failing `undo` / `redo` / `set_assigned_types` leaves
the session unchanged. -/
def runAct (a : Act) (s : Session) : Session :=
  match a with
  | .applyA op => applyClean op s
  | .undoA =>
      match undo s with
      | .ok s' => s'
      | .error _ => s
  | .redoA =>
      match redo s with
      | .ok s' => s'
      | .error _ => s
  | .resetA => resetSession s
  | .setTypesA m =>
      match setAssignedTypes m s with
      | .ok s' => s'
      | .error _ => s

/-- Run a list of actions in order. -/
def runActs (l : List Act) (s : Session) : Session :=
  l.foldl (fun s a => runAct a s) s

/-- Every assigned type held by the session is a member of the nine-value
enumeration. -/
def typesValid (s : Session) : Bool :=
  s.assignedTypes.all (fun p => typeOptions.contains p.2)

/-! ## Client model (embedded from the frontend sources)

The AppContext provider (AppContext.jsx) holds the client-side session
state; its async handlers are embedded as pure functions taking the outcome
of each awaited API call as an explicit `Except` argument. -/

/-- A thrown JavaScript error, as observed through its `message`. -/
structure JsError where
  message : String
deriving DecidableEq, Repr

/-- The payload of a successful `/data/{id}/stats` response: the stats blob
(kept opaque) and the column-types mapping. -/
structure StatsResult where
  stats : String
  column_types : List (String × String)
deriving DecidableEq, Repr

/-- The client state kept by the AppContext provider (the fields the
embedded handlers read or write). -/
structure ClientState where
  sessionId : String
  dataset : Option String
  columnTypes : List (String × String)
  columnAnalysis : List (String × String)
  stats : Option String
  columnInfo : List String
  loading : Bool
  error : Option String
  undoAvailable : Bool
  redoAvailable : Bool
  sessionInitialized : Bool
deriving DecidableEq, Repr

/-- `fetchStats` of AppContext: on success stores `result.stats` and
`result.column_types`; on failure records the error message and re-throws. -/
def fetchStatsStep (c : ClientState) (r : Except JsError StatsResult) :
    ClientState × Except JsError StatsResult :=
  match r with
  | .ok st =>
      ({ c with stats := some st.stats, columnTypes := st.column_types }, .ok st)
  | .error e =>
      ({ c with error := some e.message }, .error e)

/-- `applyCleaning` of AppContext: sets loading, awaits the `/clean` call;
on success sets `undoAvailable := true`, `redoAvailable := false`, then
awaits `fetchStats` and returns the cleaning result; any thrown error has
its message recorded and is re-raised; loading is cleared in `finally`.
`cleanRes` is the outcome of `api.applyCleaning`, `statsRes` the outcome of
the subsequent stats fetch. -/
def clientApplyCleaning (c : ClientState) (cleanRes : Except JsError String)
    (statsRes : Except JsError StatsResult) :
    ClientState × Except JsError String :=
  match cleanRes with
  | .error e =>
      ({ c with error := some e.message, loading := false }, .error e)
  | .ok result =>
      let c1 := { c with undoAvailable := true, redoAvailable := false }
      match fetchStatsStep c1 statsRes with
      | (c2, .ok _) => ({ c2 with loading := false }, .ok result)
      | (c2, .error e) =>
          ({ c2 with error := some e.message, loading := false }, .error e)

/-- `resetToOriginal` of AppContext: awaits `/reset/{id}`, then `fetchStats`,
then sets `undoAvailable := true` and `redoAvailable := false`; any thrown
error has its message recorded and is re-raised. -/
def clientResetToOriginal (c : ClientState) (resetRes : Except JsError Unit)
    (statsRes : Except JsError StatsResult) :
    ClientState × Except JsError Unit :=
  match resetRes with
  | .error e => ({ c with error := some e.message }, .error e)
  | .ok _ =>
      match fetchStatsStep c statsRes with
      | (c1, .ok _) =>
          ({ c1 with undoAvailable := true, redoAvailable := false }, .ok ())
      | (c1, .error e) =>
          ({ c1 with error := some e.message }, .error e)

/-- The session-identifier initializer of AppProvider:
`loadFromStorage(SESSION_ID)` followed by `saved || uuidv4()` — the stored
identifier is reused when present (non-empty), otherwise the freshly
generated UUID is used. -/
def initSessionId (saved : Option String) (freshUuid : String) : String :=
  match saved with
  | some s => if s = "" then freshUuid else s
  | none => freshUuid

/-- The browser localStorage slots named by `STORAGE_KEYS`. -/
structure LocalStore where
  session_id : Option String
  dataset : Option String
  column_types : Option String
  stats : Option String
  column_info : Option String
  column_analysis : Option String
deriving DecidableEq, Repr

/-- `clearSession` of AppContext: resets all in-memory dataset state and the
undo/redo flags to their empty defaults, removes every STORAGE_KEYS entry
from localStorage, then installs a freshly generated UUID as the session
identifier and persists it. `newUuid` is the value produced by `uuidv4()`. -/
def clientClearSession (c : ClientState) (_store : LocalStore)
    (newUuid : String) : ClientState × LocalStore :=
  let c1 : ClientState :=
    { c with sessionInitialized := false, dataset := none, stats := none,
             columnInfo := [], columnTypes := [], columnAnalysis := [],
             undoAvailable := false, redoAvailable := false,
             sessionId := newUuid }
  let store1 : LocalStore :=
    { session_id := some newUuid, dataset := none, column_types := none,
      stats := none, column_info := none, column_analysis := none }
  (c1, store1)

/-! ## Cleaning-wizard page model (embedded from CleaningWizardPage) -/

/-- The component state of the cleaning-wizard page that the embedded
handlers touch. The `undoStack` / `redoStack` fields mirror the stack
listings reported by `/history/{id}`. -/
structure WizardState where
  selectedColumn : String
  selectedMethod : Option String
  selectedMethodType : String
  previewData : Option String
  result : Option String
  undoStack : List String
  redoStack : List String
  lastToast : Option String
deriving DecidableEq, Repr

/-- `handlePreview` of CleaningWizardPage: requires a selected column and
method (otherwise only an error toast); on API success stores the returned
preview diff in `previewData`; on failure only an error toast. It never
touches stats, history or the undo/redo stacks. -/
def handlePreview (w : WizardState) (apiRes : Except JsError String) :
    WizardState :=
  if w.selectedColumn = "" ∨ w.selectedMethod = none then
    { w with lastToast := some "Please select a column and method" }
  else
    match apiRes with
    | .ok p => { w with previewData := some p,
                        lastToast := some "Preview generated" }
    | .error _ => { w with lastToast := some "Preview failed" }

/-- The column-type default of CleaningWizardPage:
`columnTypes[selectedColumn] || 'unknown'` — the recorded assigned type, or
"unknown" when absent (or recorded as the empty, falsy string). -/
def colTypeOrUnknown (columnTypes : List (String × String))
    (col : String) : String :=
  match columnTypes.lookup col with
  | some t => if t = "" then "unknown" else t
  | none => "unknown"

/-- `getApplicableMethods` of CleaningWizardPage: returns `[]` without a
selected column or a catalog entry for the selected method type; otherwise
filters that entry's methods by whether `applicable` includes "all" or the
column's type (`columnTypes[selectedColumn] || 'unknown'`). -/
def getApplicableMethods (selectedColumn selectedMethodType : String)
    (cleaningMethods : List (String × List CleaningMethod))
    (columnTypes : List (String × String)) : List CleaningMethod :=
  if selectedColumn = "" then []
  else
    match cleaningMethods.lookup selectedMethodType with
    | none => []
    | some methods =>
        methods.filter (fun m =>
          m.applicable.contains "all" ||
          m.applicable.contains (colTypeOrUnknown columnTypes selectedColumn))

/-- The `disabled` condition of the wizard's Undo button:
`undoStack.length === 0`. -/
def undoDisabled (w : WizardState) : Bool :=
  w.undoStack.length == 0

/-- The `disabled` condition of the wizard's Redo button:
`redoStack.length === 0`. -/
def redoDisabled (w : WizardState) : Bool :=
  w.redoStack.length == 0

/-! ## History-chain infrastructure -/

/-- The undo stack (head = most recent) links dataset states in a chain:
each record's post-image is the state above it, its pre-image the state
below. -/
def IsChain : Dataset → List OpRecord → Dataset → Prop
  | top, [], bot => top = bot
  | top, r :: rs, bot => r.postImage = top ∧ IsChain r.preImage rs bot

/-- The redo stack (head = next to redo) links dataset states upward: each
record's pre-image is the state below it, its post-image the state above. -/
def IsRedoChain : Dataset → List OpRecord → Dataset → Prop
  | bot, [], top => bot = top
  | bot, r :: rs, top => r.preImage = bot ∧ IsRedoChain r.postImage rs top

/-- The records (newest first) that a run of committed operations generates
from a given starting dataset. -/
def opRecords : List OpSpec → Dataset → List OpRecord
  | [], _ => []
  | op :: ops, d => opRecords ops (op.transform d) ++ [mkRecord op d]

/-! ## Concrete sample material for witnesses and counterexamples -/

/-- A one-column, one-row sample dataset. -/
def sampleData : Dataset := [("a", [Cell.num 0])]

/-- A committed operation that overwrites column "a" with the value `k`. -/
def setOp (k : Nat) : OpSpec :=
  { column := some "a", category := "missing_values", method := "set_value",
    params := [], transform := fun _ => [("a", [Cell.num k])] }

/-- A freshly loaded sample session. -/
def sampleSession : Session := loadDataset sampleData

/-- `n` distinct committed operations on the sample session. -/
def sampleOps (n : Nat) : List OpSpec :=
  (List.range n).map (fun k => setOp (k + 1))

/-! ## Supporting lemmas -/

theorem opRecords_length (ops : List OpSpec) (d : Dataset) :
    (opRecords ops d).length = ops.length := by
  induction ops generalizing d with
  | nil => rfl
  | cons op ops ih => simp [opRecords, ih]

theorem chain_append {top m bot : Dataset} {A B : List OpRecord}
    (hA : IsChain top A m) (hB : IsChain m B bot) :
    IsChain top (A ++ B) bot := by
  induction A generalizing top with
  | nil => simpa [IsChain, hA.symm] using hB
  | cons r rs ih =>
      obtain ⟨h1, h2⟩ := hA
      exact ⟨h1, ih h2⟩

theorem redoChain_append {bot m top : Dataset} {A B : List OpRecord}
    (hA : IsRedoChain bot A m) (hB : IsRedoChain m B top) :
    IsRedoChain bot (A ++ B) top := by
  induction A generalizing bot with
  | nil => simpa [IsRedoChain, hA.symm] using hB
  | cons r rs ih =>
      obtain ⟨h1, h2⟩ := hA
      exact ⟨h1, ih h2⟩

theorem chain_reverse {top bot : Dataset} {l : List OpRecord}
    (h : IsChain top l bot) : IsRedoChain bot l.reverse top := by
  induction l generalizing top with
  | nil => simpa [IsRedoChain] using h.symm
  | cons r rs ih =>
      obtain ⟨h1, h2⟩ := h
      have single : IsRedoChain r.preImage [r] top := ⟨rfl, h1⟩
      simpa using redoChain_append (ih h2) single

theorem transformAll_cons (op : OpSpec) (ops : List OpSpec) (d : Dataset) :
    transformAll (op :: ops) d = transformAll ops (op.transform d) := rfl

theorem transformAll_append (l₁ l₂ : List OpSpec) (d : Dataset) :
    transformAll (l₁ ++ l₂) d = transformAll l₂ (transformAll l₁ d) := by
  simp [transformAll, List.foldl_append]

theorem opRecords_chain (ops : List OpSpec) (d : Dataset) :
    IsChain (transformAll ops d) (opRecords ops d) d := by
  induction ops generalizing d with
  | nil => simp [IsChain, transformAll, opRecords]
  | cons op ops ih =>
      have single : IsChain (op.transform d) [mkRecord op d] d :=
        ⟨rfl, rfl⟩
      simpa [opRecords, transformAll_cons] using
        chain_append (ih (op.transform d)) single

theorem opRecords_append (l₁ l₂ : List OpSpec) (d : Dataset) :
    opRecords (l₁ ++ l₂) d =
      opRecords l₂ (transformAll l₁ d) ++ opRecords l₁ d := by
  induction l₁ generalizing d with
  | nil => simp [opRecords, transformAll]
  | cons op l₁ ih =>
      simp [opRecords, ih, transformAll_cons, List.append_assoc]

theorem take_append_take (A l : List OpRecord) (n : Nat) :
    (A ++ l.take n).take n = (A ++ l).take n := by
  rw [List.take_append_eq_append_take, List.take_append_eq_append_take,
      List.take_take, Nat.min_eq_left (Nat.sub_le n A.length)]

theorem applyAll_cons (op : OpSpec) (ops : List OpSpec) (s : Session) :
    applyAll (op :: ops) s = applyAll ops (applyClean op s) := rfl

theorem applyAll_active (ops : List OpSpec) (s : Session) :
    (applyAll ops s).active = transformAll ops s.active := by
  induction ops generalizing s with
  | nil => rfl
  | cons op ops ih => simp [applyAll_cons, ih, transformAll_cons, applyClean]

theorem applyAll_pristine (ops : List OpSpec) (s : Session) :
    (applyAll ops s).pristine = s.pristine := by
  induction ops generalizing s with
  | nil => rfl
  | cons op ops ih => simp [applyAll_cons, ih, applyClean]

theorem applyAll_undoStack (ops : List OpSpec) (s : Session)
    (h : s.undoStack.length ≤ historyCap) :
    (applyAll ops s).undoStack =
      (opRecords ops s.active ++ s.undoStack).take historyCap := by
  induction ops generalizing s with
  | nil =>
      show s.undoStack = (opRecords [] s.active ++ s.undoStack).take historyCap
      rw [opRecords, List.nil_append, List.take_of_length_le h]
  | cons op ops ih =>
      have hlen : (applyClean op s).undoStack.length ≤ historyCap := by
        show ((mkRecord op s.active :: s.undoStack).take historyCap).length ≤
          historyCap
        exact List.length_take_le historyCap _
      rw [applyAll_cons, ih _ hlen]
      show (opRecords ops (op.transform s.active) ++
              (mkRecord op s.active :: s.undoStack).take historyCap).take
            historyCap = _
      rw [take_append_take]
      simp [opRecords, List.append_assoc]

theorem applyAll_redoStack (op : OpSpec) (ops : List OpSpec) (s : Session) :
    (applyAll (op :: ops) s).redoStack = [] := by
  induction ops generalizing op s with
  | nil => rfl
  | cons op' ops ih => exact ih op' (applyClean op s)

theorem undoN_succ (n : Nat) (s : Session) :
    undoN (n + 1) s =
      match undo s with
      | .ok s' => undoN n s'
      | .error e => .error e := rfl

theorem redoN_succ (n : Nat) (s : Session) :
    redoN (n + 1) s =
      match redo s with
      | .ok s' => redoN n s'
      | .error e => .error e := rfl

/-- Undoing down a chained prefix of the undo stack restores the chain's
bottom state and moves the prefix, reversed, onto the redo stack. -/
theorem undo_prefix {bot : Dataset} (A rest : List OpRecord) (s : Session)
    (hstack : s.undoStack = A ++ rest)
    (hchain : IsChain s.active A bot) :
    ∃ s', undoN A.length s = .ok s' ∧
      s'.active = bot ∧
      s'.undoStack = rest ∧
      s'.redoStack = A.reverse ++ s.redoStack ∧
      s'.pristine = s.pristine ∧
      s'.assignedTypes = s.assignedTypes := by
  induction A generalizing s with
  | nil =>
      exact ⟨s, rfl, hchain, by simpa using hstack, by simp, rfl, rfl⟩
  | cons r rs ih =>
      obtain ⟨hpost, hchain'⟩ := hchain
      set s1 : Session :=
        { s with active := r.preImage,
                 undoStack := rs ++ rest,
                 redoStack := r :: s.redoStack } with hs1
      have hu : undo s = .ok s1 := by
        simp [undo, hstack, hs1]
      have hstack1 : s1.undoStack = rs ++ rest := by simp [hs1]
      obtain ⟨s', h1, h2, h3, h4, h5, h6⟩ := ih s1 hstack1 hchain'
      refine ⟨s', ?_, h2, h3, ?_, h5, h6⟩
      · show undoN (rs.length + 1) s = .ok s'
        rw [undoN_succ, hu]
        exact h1
      · rw [h4]; simp [hs1]

/-- Redoing up a chained prefix of the redo stack restores the chain's top
state and moves the prefix, reversed, back onto the undo stack. -/
theorem redo_prefix {top : Dataset} (B rest : List OpRecord) (s : Session)
    (hstack : s.redoStack = B ++ rest)
    (hchain : IsRedoChain s.active B top) :
    ∃ s', redoN B.length s = .ok s' ∧
      s'.active = top ∧
      s'.redoStack = rest ∧
      s'.undoStack = B.reverse ++ s.undoStack ∧
      s'.pristine = s.pristine := by
  induction B generalizing s with
  | nil =>
      exact ⟨s, rfl, hchain, by simpa using hstack, by simp, rfl⟩
  | cons r rs ih =>
      obtain ⟨hpre, hchain'⟩ := hchain
      set s1 : Session :=
        { s with active := r.postImage,
                 redoStack := rs ++ rest,
                 undoStack := r :: s.undoStack } with hs1
      have hr : redo s = .ok s1 := by
        simp [redo, hstack, hs1]
      have hstack1 : s1.redoStack = rs ++ rest := by simp [hs1]
      obtain ⟨s', h1, h2, h3, h4, h5⟩ := ih s1 hstack1 hchain'
      refine ⟨s', ?_, h2, h3, ?_, h5⟩
      · show redoN (rs.length + 1) s = .ok s'
        rw [redoN_succ, hr]
        exact h1
      · rw [h4]; simp [hs1]

/-! ## Claim theorems -/

/-- C1 (amended). For every session within the 20-entry history cap (as every
reachable session is) and every sequence of at most 20 committed cleaning
operations, calling `undo()` N times returns the Dataset Store to a state
byte-identical to the state before those N operations, and calling `redo()`
N times afterwards returns it to the state after them: eviction can only drop
records older than the N fresh ones. (The cap evicts the oldest pre-images,
so the unrestricted round-trip of the original claim fails for N beyond
20.) -/
theorem undo_redo_roundtrip (s : Session) (ops : List OpSpec)
    (hdepth : s.undoStack.length ≤ historyCap)
    (h : ops.length ≤ historyCap) :
    ∃ s₁ s₂, undoN ops.length (applyAll ops s) = .ok s₁ ∧
      s₁.active = s.active ∧
      redoN ops.length s₁ = .ok s₂ ∧
      s₂.active = (applyAll ops s).active := by
  have hreclen : (opRecords ops s.active).length ≤ historyCap := by
    rwa [opRecords_length]
  have hU : (applyAll ops s).undoStack =
      opRecords ops s.active ++
        s.undoStack.take (historyCap - ops.length) := by
    rw [applyAll_undoStack ops s hdepth, List.take_append_eq_append_take,
        List.take_of_length_le hreclen, opRecords_length]
  have hchain : IsChain (applyAll ops s).active (opRecords ops s.active)
      s.active := by
    rw [applyAll_active]
    exact opRecords_chain ops s.active
  obtain ⟨s₁, h1, h2, h3, h4, h5, h6⟩ :=
    undo_prefix (opRecords ops s.active)
      (s.undoStack.take (historyCap - ops.length)) (applyAll ops s) hU hchain
  rw [opRecords_length] at h1
  have hrchain : IsRedoChain s₁.active (opRecords ops s.active).reverse
      (transformAll ops s.active) := by
    rw [h2]
    exact chain_reverse (opRecords_chain ops s.active)
  obtain ⟨s₂, g1, g2, g3, g4, g5⟩ :=
    redo_prefix (opRecords ops s.active).reverse ((applyAll ops s).redoStack)
      s₁ h4 hrchain
  rw [List.length_reverse, opRecords_length] at g1
  exact ⟨s₁, s₂, h1, h2, g1, by rw [g2, applyAll_active]⟩

/-- C1 witness: a concrete 20-operation round trip on a session that already
holds one undo record (pre-existing depth 1 + N = 20 exceeds the cap, so one
old record is evicted, yet the 20 fresh operations still round-trip). -/
theorem undo_redo_roundtrip_witness :
    (applyClean (setOp 99) sampleSession).undoStack.length ≤ historyCap ∧
    (sampleOps 20).length ≤ historyCap ∧
    (∃ s₁ s₂,
      undoN (sampleOps 20).length
        (applyAll (sampleOps 20) (applyClean (setOp 99) sampleSession)) =
          .ok s₁ ∧
      s₁.active = (applyClean (setOp 99) sampleSession).active ∧
      redoN (sampleOps 20).length s₁ = .ok s₂ ∧
      s₂.active =
        (applyAll (sampleOps 20) (applyClean (setOp 99) sampleSession)).active) :=
  ⟨by decide, by decide,
   undo_redo_roundtrip (applyClean (setOp 99) sampleSession) (sampleOps 20)
     (by decide) (by decide)⟩

/-- C1 counterexample: with 21 committed operations on a fresh session, the
21st `undo()` fails with `NothingToUndo` (the oldest pre-image was evicted by
the 20-entry cap), so undoing N times does not return to the original
state. -/
theorem roundtrip_fails_beyond_cap :
    sampleSession.undoStack = [] ∧
    sampleSession.redoStack = [] ∧
    (sampleOps 21).length = 21 ∧
    undoN (sampleOps 21).length (applyAll (sampleOps 21) sampleSession) =
      .error .NothingToUndo ∧
    ¬ ∃ s₁,
        undoN (sampleOps 21).length (applyAll (sampleOps 21) sampleSession) =
          .ok s₁ ∧
        s₁.active = sampleSession.active := by
  have h4 : undoN (sampleOps 21).length (applyAll (sampleOps 21) sampleSession)
      = .error .NothingToUndo := by rfl
  refine ⟨rfl, rfl, rfl, h4, ?_⟩
  rintro ⟨s₁, hs₁, -⟩
  rw [h4] at hs₁
  exact Except.noConfusion hs₁

/-- C2. Every successful apply of a cleaning operation — in particular one
performed after one or more undos — clears the redo stack entirely, so an
immediately following `redo()` fails with `NothingToRedo`; and in the client,
`applyCleaning` sets `redoAvailable` to `false` on every success of the
`/clean` call. -/
theorem apply_clears_redo :
    (∀ (op : OpSpec) (s : Session),
        (applyClean op s).redoStack = [] ∧
        redo (applyClean op s) = .error .NothingToRedo) ∧
    (∀ (c : ClientState) (res : String)
        (statsRes : Except JsError StatsResult),
        (clientApplyCleaning c (.ok res) statsRes).1.redoAvailable = false) := by
  constructor
  · intro op s
    exact ⟨rfl, rfl⟩
  · intro c res statsRes
    cases statsRes <;> simp [clientApplyCleaning, fetchStatsStep]

/-- C3. The undo stack never exceeds the 20-entry cap under committed
applies; after 25 applies with no intervening undo on a session with empty
history, the stack holds exactly 20 entries, and the 5 oldest pre-images are
unrecoverable: exhausting all 20 undos lands on the state after the 5th
operation and a further `undo()` fails with `NothingToUndo`. -/
theorem history_cap_bound (s : Session) (ops : List OpSpec)
    (h0 : s.undoStack = []) (h25 : ops.length = 25) :
    (∀ (ops' : List OpSpec) (s' : Session),
        s'.undoStack.length ≤ historyCap →
        (applyAll ops' s').undoStack.length ≤ historyCap) ∧
    (applyAll ops s).undoStack.length = historyCap ∧
    (∃ s₁, undoN historyCap (applyAll ops s) = .ok s₁ ∧
      s₁.active = transformAll (ops.take 5) s.active ∧
      s₁.undoStack = [] ∧
      undo s₁ = .error .NothingToUndo) := by
  have hlen0 : s.undoStack.length ≤ historyCap := by
    rw [h0]; exact Nat.zero_le _
  have hstack := applyAll_undoStack ops s hlen0
  rw [h0, List.append_nil] at hstack
  have hsplit : opRecords ops s.active =
      opRecords (ops.drop 5) (transformAll (ops.take 5) s.active) ++
        opRecords (ops.take 5) s.active := by
    conv_lhs => rw [← List.take_append_drop 5 ops]
    rw [opRecords_append]
  have hdroplen : (opRecords (ops.drop 5)
      (transformAll (ops.take 5) s.active)).length = historyCap := by
    rw [opRecords_length, List.length_drop, h25]
    rfl
  have hstack' : (applyAll ops s).undoStack =
      opRecords (ops.drop 5) (transformAll (ops.take 5) s.active) := by
    rw [hstack, hsplit, List.take_left' hdroplen]
  refine ⟨?_, ?_, ?_⟩
  · intro ops' s' h
    rw [applyAll_undoStack ops' s' h]
    exact List.length_take_le historyCap _
  · rw [hstack', hdroplen]
  · have htr : transformAll ops s.active =
        transformAll (ops.drop 5) (transformAll (ops.take 5) s.active) := by
      conv_lhs => rw [← List.take_append_drop 5 ops]
      rw [transformAll_append]
    have hchain : IsChain (applyAll ops s).active
        ((applyAll ops s).undoStack) (transformAll (ops.take 5) s.active) := by
      rw [hstack', applyAll_active, htr]
      exact opRecords_chain _ _
    obtain ⟨s₁, h1, h2, h3, h4, h5, h6⟩ :=
      undo_prefix ((applyAll ops s).undoStack) [] (applyAll ops s)
        (by simp) hchain
    rw [hstack', hdroplen] at h1
    refine ⟨s₁, h1, h2, h3, ?_⟩
    rw [undo, h3]

/-- C3 witness: 25 concrete operations on the sample session. -/
theorem history_cap_bound_witness :
    sampleSession.undoStack = [] ∧ (sampleOps 25).length = 25 ∧
    ((∀ (ops' : List OpSpec) (s' : Session),
        s'.undoStack.length ≤ historyCap →
        (applyAll ops' s').undoStack.length ≤ historyCap) ∧
     (applyAll (sampleOps 25) sampleSession).undoStack.length = historyCap ∧
     (∃ s₁, undoN historyCap (applyAll (sampleOps 25) sampleSession) = .ok s₁ ∧
       s₁.active = transformAll ((sampleOps 25).take 5) sampleSession.active ∧
       s₁.undoStack = [] ∧
       undo s₁ = .error .NothingToUndo)) :=
  ⟨rfl, rfl, history_cap_bound sampleSession (sampleOps 25) rfl rfl⟩

theorem detectType_mem (vals : List Cell) :
    typeOptions.contains (detectType vals) = true := by
  unfold detectType
  repeat' split
  all_goals decide

theorem detectTypes_valid (d : Dataset) :
    (detectTypes d).all (fun p => typeOptions.contains p.2) = true := by
  rw [List.all_eq_true]
  intro p hp
  rw [detectTypes, List.mem_map] at hp
  obtain ⟨q, -, rfl⟩ := hp
  exact detectType_mem q.2

theorem typesValid_runAct (a : Act) (s : Session)
    (h : typesValid s = true) : typesValid (runAct a s) = true := by
  cases a with
  | applyA op => exact h
  | undoA =>
      show typesValid (match undo s with | .ok s' => s' | .error _ => s) = true
      cases hstk : s.undoStack <;> simp [undo, hstk] <;>
        simpa [typesValid] using h
  | redoA =>
      show typesValid (match redo s with | .ok s' => s' | .error _ => s) = true
      cases hstk : s.redoStack <;> simp [redo, hstk] <;>
        simpa [typesValid] using h
  | resetA =>
      show typesValid (resetSession s) = true
      simpa [typesValid, resetSession] using detectTypes_valid s.pristine
  | setTypesA m =>
      show typesValid (match setAssignedTypes m s with
        | .ok s' => s' | .error _ => s) = true
      unfold setAssignedTypes
      by_cases hv : m.all (fun p => typeOptions.contains p.2) = true
      · rw [if_pos hv]; exact hv
      · rw [if_neg hv]; exact h

/-- C4. The column-type enumeration is the closed nine-value set: the
type-selection UI offers exactly these nine options (`typeOptions`), a
freshly loaded session's assigned types are all members of the set, and no
sequence of session actions (apply, undo, redo, reset, type update) can make
an assigned type leave the set. -/
theorem column_types_closed :
    typeOptions = ["continuous", "integer", "ordinal", "categorical",
      "binary", "text", "datetime", "empty", "unknown"] ∧
    typeOptions.length = 9 ∧
    (∀ d : Dataset, typesValid (loadDataset d) = true) ∧
    (∀ (s : Session) (l : List Act),
        typesValid s = true → typesValid (runActs l s) = true) := by
  refine ⟨rfl, rfl, ?_, ?_⟩
  · intro d
    simpa [typesValid, loadDataset] using detectTypes_valid d
  · intro s l h
    induction l generalizing s with
    | nil => exact h
    | cons a l ih => exact ih (runAct a s) (typesValid_runAct a s h)

/-- C4 witness: the invariant evaluated along a concrete action sequence on
the concretely loaded sample session. -/
theorem column_types_closed_witness :
    typesValid sampleSession = true ∧
    typesValid (runActs [.applyA (setOp 1), .undoA, .resetA,
      .setTypesA [("a", "integer")], .redoA] sampleSession) = true :=
  ⟨by decide,
   column_types_closed.2.2.2 sampleSession
     [.applyA (setOp 1), .undoA, .resetA, .setTypesA [("a", "integer")],
      .redoA] (by decide)⟩

/-- C5. A cleaning method is offered for a column exactly when the method's
declared applicable-types set contains the wildcard "all" or the column's
current type (assigned type, defaulting to "unknown" when none is recorded):
the client's `getApplicableMethods` filters the catalog entry by precisely
this predicate, and the Dispatcher commits an apply only when the same
predicate holds of the column's assigned type. -/
theorem applicable_methods_filter
    (selectedColumn selectedMethodType : String)
    (cleaningMethods : List (String × List CleaningMethod))
    (columnTypes : List (String × String))
    (methods : List CleaningMethod) (m : CleaningMethod)
    (hcol : selectedColumn ≠ "")
    (hcat : cleaningMethods.lookup selectedMethodType = some methods) :
    (m ∈ getApplicableMethods selectedColumn selectedMethodType
        cleaningMethods columnTypes ↔
      m ∈ methods ∧
        (m.applicable.contains "all" = true ∨
         m.applicable.contains
           (colTypeOrUnknown columnTypes selectedColumn) = true)) ∧
    (∀ (catalog : List (String × List CleaningMethod))
        (cat meth col : String) (t : Dataset → Dataset) (s s' : Session),
        dispatchClean catalog cat meth col t s = .ok s' →
        ∃ cm, lookupMethod catalog cat meth = some cm ∧
          methodApplicable cm (colAssignedType s col) = true) := by
  constructor
  · rw [getApplicableMethods]
    simp only [hcol, if_false, hcat, List.mem_filter, Bool.or_eq_true]
  · intro catalog cat meth col t s s' hdisp
    rw [dispatchClean] at hdisp
    cases hlk : lookupMethod catalog cat meth with
    | none => rw [hlk] at hdisp; exact absurd hdisp (by simp)
    | some cm =>
        rw [hlk] at hdisp
        refine ⟨cm, rfl, ?_⟩
        by_cases happ : methodApplicable cm (colAssignedType s col) = true
        · exact happ
        · simp [happ] at hdisp

/-- C5 witness: a concrete two-method catalog filtered for a concrete
column. -/
theorem applicable_methods_filter_witness :
    ("age" : String) ≠ "" ∧
    ([("missing_values",
        [⟨"mean", "Mean imputation", ["continuous", "integer"]⟩,
         ⟨"drop", "Drop rows", ["all"]⟩])] :
      List (String × List CleaningMethod)).lookup "missing_values" =
      some [⟨"mean", "Mean imputation", ["continuous", "integer"]⟩,
            ⟨"drop", "Drop rows", ["all"]⟩] ∧
    ((⟨"mean", "Mean imputation", ["continuous", "integer"]⟩ : CleaningMethod) ∈
        getApplicableMethods "age" "missing_values"
          [("missing_values",
            [⟨"mean", "Mean imputation", ["continuous", "integer"]⟩,
             ⟨"drop", "Drop rows", ["all"]⟩])]
          [("age", "integer")] ↔
      (⟨"mean", "Mean imputation", ["continuous", "integer"]⟩ : CleaningMethod) ∈
          [⟨"mean", "Mean imputation", ["continuous", "integer"]⟩,
           ⟨"drop", "Drop rows", ["all"]⟩] ∧
        ((["continuous", "integer"] : List String).contains "all" = true ∨
         (["continuous", "integer"] : List String).contains
           (colTypeOrUnknown [("age", "integer")] "age") = true)) :=
  ⟨by decide, by decide,
   (applicable_methods_filter "age" "missing_values" _ [("age", "integer")] _
     ⟨"mean", "Mean imputation", ["continuous", "integer"]⟩
     (by decide) (by decide)).1⟩

/-- C6. Preview performs no commit: the Dispatcher's preview returns the
session untouched while reporting exactly the dataset that a commit of the
same operation would have produced, and the client's `handlePreview` only
stores the returned diff — it never touches the undo/redo stacks, the
recorded history result, or anything beyond `previewData` and the toast. -/
theorem preview_no_commit :
    (∀ (op : OpSpec) (s : Session),
        (previewClean op s).2 = s ∧
        (previewClean op s).1 = (applyClean op s).active) ∧
    (∀ (w : WizardState) (r : Except JsError String),
        (handlePreview w r).undoStack = w.undoStack ∧
        (handlePreview w r).redoStack = w.redoStack ∧
        (handlePreview w r).result = w.result ∧
        (handlePreview w r).selectedColumn = w.selectedColumn ∧
        (handlePreview w r).selectedMethod = w.selectedMethod) := by
  constructor
  · intro op s
    exact ⟨rfl, rfl⟩
  · intro w r
    unfold handlePreview
    split
    · exact ⟨rfl, rfl, rfl, rfl, rfl⟩
    · cases r <;> exact ⟨rfl, rfl, rfl, rfl, rfl⟩

/-- C7. `reset_session` restores the active dataset from the pristine copy,
resets the metadata to the freshly detected types of the pristine data,
replaces both history stacks so that the undo stack holds exactly the single
"reset" marker: immediately afterwards `undo()` succeeds (restoring the
pre-reset dataset) while `redo()` fails with `NothingToRedo`; and the
client's `resetToOriginal` sets `undoAvailable := true` and
`redoAvailable := false` after a fully successful reset. -/
theorem reset_restores_pristine :
    (∀ s : Session,
        (resetSession s).active = s.pristine ∧
        (resetSession s).assignedTypes = detectTypes s.pristine ∧
        (resetSession s).undoStack = [resetMarker s] ∧
        (resetSession s).redoStack = [] ∧
        (∃ s', undo (resetSession s) = .ok s' ∧ s'.active = s.active) ∧
        redo (resetSession s) = .error .NothingToRedo) ∧
    (∀ (c : ClientState) (st : StatsResult),
        (clientResetToOriginal c (.ok ()) (.ok st)).1.undoAvailable = true ∧
        (clientResetToOriginal c (.ok ()) (.ok st)).1.redoAvailable = false) := by
  constructor
  · intro s
    exact ⟨rfl, rfl, rfl, rfl, ⟨_, rfl, rfl⟩, rfl⟩
  · intro c st
    exact ⟨rfl, rfl⟩

/-- C8. On a session whose undo stack is empty, `undo()` fails with
`NothingToUndo` and the session — its dataset included — is left unchanged;
the client disables the Undo control exactly when the reported undo stack
length is zero. -/
theorem undo_empty_fails (s : Session) (h : s.undoStack = []) :
    undo s = .error .NothingToUndo ∧
    runAct .undoA s = s ∧
    (∀ w : WizardState, undoDisabled w = true ↔ w.undoStack = []) := by
  have hu : undo s = .error .NothingToUndo := by
    unfold undo
    rw [h]
  refine ⟨hu, ?_, ?_⟩
  · show (match undo s with | .ok s' => s' | .error _ => s) = s
    rw [hu]
  · intro w
    simp [undoDisabled, List.length_eq_zero]

/-- C8 witness: the freshly loaded sample session has an empty undo stack. -/
theorem undo_empty_fails_witness :
    sampleSession.undoStack = [] ∧
    (undo sampleSession = .error .NothingToUndo ∧
     runAct .undoA sampleSession = sampleSession ∧
     (∀ w : WizardState, undoDisabled w = true ↔ w.undoStack = [])) :=
  ⟨rfl, undo_empty_fails sampleSession rfl⟩

/-- C9. When the `/clean` call rejects, the client's `applyCleaning` leaves
`undoAvailable` and `redoAvailable` exactly as they were, records the error
message, and re-raises the error; the flags change (undo available, redo
unavailable) only on a successful apply. -/
theorem apply_failure_preserves_flags :
    (∀ (c : ClientState) (e : JsError)
        (statsRes : Except JsError StatsResult),
        (clientApplyCleaning c (.error e) statsRes).1.undoAvailable =
          c.undoAvailable ∧
        (clientApplyCleaning c (.error e) statsRes).1.redoAvailable =
          c.redoAvailable ∧
        (clientApplyCleaning c (.error e) statsRes).1.error =
          some e.message ∧
        (clientApplyCleaning c (.error e) statsRes).2 = .error e) ∧
    (∀ (c : ClientState) (res : String)
        (statsRes : Except JsError StatsResult),
        (clientApplyCleaning c (.ok res) statsRes).1.undoAvailable = true ∧
        (clientApplyCleaning c (.ok res) statsRes).1.redoAvailable = false) := by
  constructor
  · intro c e statsRes
    exact ⟨rfl, rfl, rfl, rfl⟩
  · intro c res statsRes
    cases statsRes <;> exact ⟨rfl, rfl⟩

/-- C10. The client session identifier is stable across page reloads: a
stored (non-empty) identifier is reused and a fresh UUID is adopted only when
none is stored; and `clearSession` resets every in-memory dataset field and
both undo/redo flags to their empty defaults, removes every stored
dataset/metadata key, and installs the freshly generated UUID as the new
session identifier (in memory and in storage). -/
theorem session_id_stable (saved fresh : String) (h : saved ≠ "") :
    initSessionId (some saved) fresh = saved ∧
    initSessionId none fresh = fresh ∧
    (∀ (c : ClientState) (store : LocalStore) (newUuid : String),
        (clientClearSession c store newUuid).1.dataset = none ∧
        (clientClearSession c store newUuid).1.stats = none ∧
        (clientClearSession c store newUuid).1.columnInfo = [] ∧
        (clientClearSession c store newUuid).1.columnTypes = [] ∧
        (clientClearSession c store newUuid).1.columnAnalysis = [] ∧
        (clientClearSession c store newUuid).1.undoAvailable = false ∧
        (clientClearSession c store newUuid).1.redoAvailable = false ∧
        (clientClearSession c store newUuid).1.sessionId = newUuid ∧
        (clientClearSession c store newUuid).2 =
          { session_id := some newUuid, dataset := none,
            column_types := none, stats := none, column_info := none,
            column_analysis := none }) := by
  refine ⟨?_, rfl, ?_⟩
  · show (if saved = "" then fresh else saved) = saved
    rw [if_neg h]
  · intro c store newUuid
    exact ⟨rfl, rfl, rfl, rfl, rfl, rfl, rfl, rfl, rfl⟩

/-- C10 witness: a concrete stored identifier is reused verbatim. -/
theorem session_id_stable_witness :
    ("abc-123" : String) ≠ "" ∧
    (initSessionId (some "abc-123") "fresh-uuid" = "abc-123" ∧
     initSessionId none "fresh-uuid" = "fresh-uuid" ∧
     (∀ (c : ClientState) (store : LocalStore) (newUuid : String),
        (clientClearSession c store newUuid).1.dataset = none ∧
        (clientClearSession c store newUuid).1.stats = none ∧
        (clientClearSession c store newUuid).1.columnInfo = [] ∧
        (clientClearSession c store newUuid).1.columnTypes = [] ∧
        (clientClearSession c store newUuid).1.columnAnalysis = [] ∧
        (clientClearSession c store newUuid).1.undoAvailable = false ∧
        (clientClearSession c store newUuid).1.redoAvailable = false ∧
        (clientClearSession c store newUuid).1.sessionId = newUuid ∧
        (clientClearSession c store newUuid).2 =
          { session_id := some newUuid, dataset := none,
            column_types := none, stats := none, column_info := none,
            column_analysis := none })) :=
  ⟨by decide, session_id_stable "abc-123" "fresh-uuid" (by decide)⟩

end Renvo
